import Mathlib

/-!
Verification development for the `load-balancer` repository: a shallow
embedding of the backend-selection logic (`internal/balancer/balancer.go`),
the token-bucket rate limiter (`internal/ratelimiter/ratelimiter.go`) and the
JSON error responder (`internal/response/json.go`), together with theorems
settling the specification claims about them.

Modelling conventions:
* Go `float64` values (tokens, rate, capacity) are modelled as exact
  rationals `ℚ`; IEEE rounding is not modelled, the arithmetic is exact.
* `time.Time` instants are modelled as rational seconds; the Go zero time
  (`IsZero`) is modelled as the instant `0`, and `time.Duration.Seconds` of
  `a.Sub b` is the rational `a - b`.
* The round-robin cursor is Go's `atomic.Uint64`; it is modelled as a `Nat`
  together with the explicit wrap-around `% 2^64` that uint64 arithmetic
  performs, because the wrap changes the truth of some claims.
* Locking and store I/O cannot be observed in a sequential embedding, so
  `getOrCreateBucket` additionally emits the sequence of lock/IO events in
  the order the Go statements perform them; ordering claims are read off
  that trace.
* Go standard-library networking helpers (`net.ParseIP`,
  `net.SplitHostPort`, `strings.Split/TrimSpace`) are not repository code;
  they enter the embedding as an abstract `NetModel` parameter, and the
  concrete instance `goNet` models their behaviour on the inputs used here
  (IPv4 dotted-quad validation, single-colon host:port splitting; IPv6
  forms are not needed by any theorem below).
-/

namespace LB

/-! ## Backend pool and round-robin / random selection
    (src/internal/balancer/balancer.go) -/

/-- The modulus of Go `uint64` arithmetic, `2^64`. -/
def U64 : Nat := 18446744073709551616

/-- The selection-relevant state of `Balancer` (balancer.go:61-69): the
backends' alive flags in configuration order, and the `current` round-robin
cursor (an `atomic.Uint64`, stored here already reduced mod `2^64`). -/
structure Pool where
  alive : List Bool
  current : Nat
deriving DecidableEq

/-- A pool as built by `New` (balancer.go:73-169): every backend alive,
cursor zero. -/
def newPool (n : Nat) : Pool :=
  { alive := List.replicate n true, current := 0 }

/-- The slot index scanned at offset `i` (balancer.go:195):
`idx := int((start + uint64(i) - 1) % uint64(numBackends))`, where the inner
subtraction is uint64 arithmetic and hence wraps mod `2^64`. -/
def rrScanIdx (start n i : Nat) : Nat :=
  ((start + i + (U64 - 1)) % U64) % n

/-- `getRoundRobinHealthyBackend` (balancer.go:186-202).  Returns the chosen
index (`none` models the `ErrNoHealthyBackends` error) and the pool with the
cursor advanced by the `b.current.Add(1)` at line 192. -/
def getRoundRobinHealthyBackend (p : Pool) : Option Nat × Pool :=
  if p.alive.length = 0 then (none, p)
  else
    ((List.range p.alive.length).findSome? fun i =>
        if p.alive.getD (rrScanIdx ((p.current + 1) % U64) p.alive.length i) false then
          some (rrScanIdx ((p.current + 1) % U64) p.alive.length i)
        else none,
      { p with current := (p.current + 1) % U64 })

/-- `k` successive round-robin selections, collecting the chosen indices. -/
def rrRun : Pool → Nat → List (Option Nat)
  | _, 0 => []
  | p, k + 1 =>
    (getRoundRobinHealthyBackend p).1 ::
      rrRun (getRoundRobinHealthyBackend p).2 k

/-- The alive-index list built by `getRandomHealthyBackend`
(balancer.go:207-212). -/
def healthyIndices (alive : List Bool) : List Nat :=
  (List.range alive.length).filter fun i => alive.getD i false

/-- `getRandomHealthyBackend` (balancer.go:205-225).  The PRNG draw
`b.rng.Intn(numHealthy)` is an arbitrary value in `[0, numHealthy)`; it is
modelled by the parameter `rngDraw` reduced mod the healthy count. -/
def getRandomHealthyBackend (alive : List Bool) (rngDraw : Nat) : Option Nat :=
  if (healthyIndices alive).length = 0 then none
  else some ((healthyIndices alive).getD (rngDraw % (healthyIndices alive).length) 0)

/-! ## Token bucket rate limiter
    (src/internal/ratelimiter/ratelimiter.go) -/

/-- `TokenBucket` (ratelimiter.go:39-50); the mutex is not part of the data. -/
structure TokenBucket where
  capacity : ℚ
  rate : ℚ
  tokens : ℚ
  lastRefill : ℚ
deriving DecidableEq

/-- The package-local helper `min` (ratelimiter.go:430-435). -/
def goMin (a b : ℚ) : ℚ :=
  if a < b then a else b

/-- `floatEpsilon` (ratelimiter.go:358): `1e-9`. -/
def floatEpsilon : ℚ := 1 / 1000000000

/-- `(*TokenBucket).refill` (ratelimiter.go:152-168), called with
`now = time.Now()`.  The zero time is the instant `0`. -/
def TokenBucket.refill (tb : TokenBucket) (now : ℚ) : TokenBucket :=
  if tb.lastRefill = 0 then { tb with lastRefill := now }
  else if now - tb.lastRefill ≤ 0 ∨ tb.rate ≤ 0 then tb
  else
    { tb with
        tokens := goMin tb.capacity (tb.tokens + (now - tb.lastRefill) * tb.rate),
        lastRefill := now }

/-- `updateBucketIfNeeded` (ratelimiter.go:172-185): reconciles an existing
bucket's limits against new values, clamping tokens down to the new
capacity. -/
def updateBucketIfNeeded (bucket : TokenBucket) (newRate newCapacity : ℚ) : TokenBucket :=
  if bucket.rate ≠ newRate ∨ bucket.capacity ≠ newCapacity then
    if bucket.tokens > newCapacity then
      { bucket with rate := newRate, capacity := newCapacity, tokens := newCapacity }
    else
      { bucket with rate := newRate, capacity := newCapacity }
  else bucket

/-- The decision step of `Allow` performed under the bucket mutex
(ratelimiter.go:377-383): admit iff `tokens >= 1 - floatEpsilon`, and in
that case deduct one token. -/
def allowDecision (tb : TokenBucket) : Bool × TokenBucket :=
  if tb.tokens ≥ 1 - floatEpsilon then (true, { tb with tokens := tb.tokens - 1 })
  else (false, tb)

/-- The engine's view of the backing store for one call.  `present` models
`rl.store != nil`; `supportsState` models `SupportsStatePersistence()`;
`isStateStore` models success of the `StateStore` type assertion.
`limitConfig` models `GetClientLimitConfig`: `none` is a store error,
`some none` is not-found, `some (some (rate, capacity))` is found.
`savedState` models `GetClientSavedState` the same way with
`(tokens, lastRefill)`. -/
structure StoreModel where
  present : Bool
  supportsState : Bool
  isStateStore : Bool
  limitConfig : String → Option (Option (ℚ × ℚ))
  savedState : String → Option (Option (ℚ × ℚ))

/-- `RateLimiter` (ratelimiter.go:53-72); the bucket map is an association
list, the store and clock are passed per call. -/
structure RateLimiter where
  buckets : List (String × TokenBucket)
  enabled : Bool
  defaultRate : ℚ
  defaultCapacity : ℚ
  identifierHeader : String

/-- Lock/IO events emitted by `getOrCreateBucket`, in Go statement order. -/
inductive LockEvent
  | mapRLock | mapRUnlock | mapWLock | mapWUnlock
  | quotaLookup | stateLookup
  | bucketLock | bucketUnlock
  | mapInsert
deriving DecidableEq, BEq

/-- Position of the first occurrence of `e` in a trace. -/
def evIndex (e : LockEvent) (l : List LockEvent) : Nat :=
  l.findIdx fun x => x == e

/-- Step 2 of materialization (ratelimiter.go:279-295): the `(rate,
capacity)` a brand-new bucket starts from — the store's record if present
and found, the defaults on a missing store, a missing record, or a store
error. -/
def resolvedConfig (defaultRate defaultCapacity : ℚ) (store : StoreModel)
    (clientID : String) : ℚ × ℚ :=
  if store.present then
    match store.limitConfig clientID with
    | none => (defaultRate, defaultCapacity)
    | some (some rc) => rc
    | some none => (defaultRate, defaultCapacity)
  else (defaultRate, defaultCapacity)

/-- Step 3 of materialization (ratelimiter.go:297-328): the `(tokens,
lastRefill)` a brand-new bucket starts from — the saved state clamped to the
capacity if the store supports persistence and has it, otherwise a full
bucket with zero `lastRefill`. -/
def resolvedState (cap : ℚ) (store : StoreModel) (clientID : String) : ℚ × ℚ :=
  if store.present && store.supportsState && store.isStateStore then
    match store.savedState clientID with
    | none => (cap, 0)
    | some (some s) => (if s.1 > cap then cap else s.1, s.2)
    | some none => (cap, 0)
  else (cap, 0)

/-- Materialization of a first-seen client's bucket
(ratelimiter.go:277-346): resolve config and state, build the bucket, and
apply the immediate `refill` pass of line 342. -/
def materializeBucket (defaultRate defaultCapacity : ℚ) (store : StoreModel)
    (now : ℚ) (clientID : String) : TokenBucket :=
  TokenBucket.refill
    { capacity := (resolvedConfig defaultRate defaultCapacity store clientID).2
      rate := (resolvedConfig defaultRate defaultCapacity store clientID).1
      tokens := (resolvedState (resolvedConfig defaultRate defaultCapacity store clientID).2 store clientID).1
      lastRefill := (resolvedState (resolvedConfig defaultRate defaultCapacity store clientID).2 store clientID).2 }
    now

/-- The `(rate, capacity)` an existing bucket is reconciled against
(ratelimiter.go:196-228): the store's record if found, the defaults if the
record is missing, the bucket's current values on a store error or missing
store. -/
def reconcileLimits (rl : RateLimiter) (store : StoreModel) (clientID : String)
    (bucket : TokenBucket) : ℚ × ℚ :=
  if store.present then
    match store.limitConfig clientID with
    | none => (bucket.rate, bucket.capacity)
    | some (some rc) => rc
    | some none => (rl.defaultRate, rl.defaultCapacity)
  else (bucket.rate, bucket.capacity)

/-- Write an updated bucket back into the map (Go mutates the bucket the map
points to; functionally, the entry is replaced). -/
def setBucket (rl : RateLimiter) (clientID : String) (b : TokenBucket) : RateLimiter :=
  { rl with buckets := rl.buckets.map fun p => if p.1 = clientID then (clientID, b) else p }

/-- Lock/IO trace of the existing-bucket path of `getOrCreateBucket`
(ratelimiter.go:190-234): map read-lock and unlock around the lookup; then,
with a store, the quota lookup (plus a bucket lock/unlock to read current
values when the lookup errors), or a bucket lock/unlock to read current
values when there is no store; then the bucket lock/unlock around
`updateBucketIfNeeded`. -/
def existsTrace (store : StoreModel) (clientID : String) : List LockEvent :=
  [.mapRLock, .mapRUnlock] ++
  (if store.present then
      [.quotaLookup] ++
        (if (store.limitConfig clientID).isNone then [.bucketLock, .bucketUnlock] else [])
    else [.bucketLock, .bucketUnlock]) ++
  [.bucketLock, .bucketUnlock]

/-- Lock/IO trace of the create path of `getOrCreateBucket`
(ratelimiter.go:190-349): the failed read-locked lookup, then `rl.mu.Lock()`
at line 237, then — still under the map write-lock — the quota lookup (line
284), the saved-state lookup (line 310), the bucket lock/unlock around the
initial refill (lines 341-346), the map insert (line 348), and only then
`rl.mu.Unlock()` (line 349). -/
def createTrace (store : StoreModel) : List LockEvent :=
  [.mapRLock, .mapRUnlock, .mapWLock] ++
  (if store.present then [.quotaLookup] else []) ++
  (if store.present && store.supportsState && store.isStateStore then [.stateLookup] else []) ++
  [.bucketLock, .bucketUnlock, .mapInsert, .mapWUnlock]

/-- `getOrCreateBucket` (ratelimiter.go:189-355).  Returns the bucket the
caller will decide on, the updated limiter state, and the lock/IO trace.
The double-checked re-lookup of lines 239-275 cannot observe a different map
in this sequential embedding and is therefore the same as the create path. -/
def getOrCreateBucket (rl : RateLimiter) (store : StoreModel) (now : ℚ)
    (clientID : String) : TokenBucket × RateLimiter × List LockEvent :=
  match rl.buckets.lookup clientID with
  | some bucket =>
    (updateBucketIfNeeded bucket (reconcileLimits rl store clientID bucket).1
        (reconcileLimits rl store clientID bucket).2,
      setBucket rl clientID
        (updateBucketIfNeeded bucket (reconcileLimits rl store clientID bucket).1
          (reconcileLimits rl store clientID bucket).2),
      existsTrace store clientID)
  | none =>
    (materializeBucket rl.defaultRate rl.defaultCapacity store now clientID,
      { rl with buckets :=
          (clientID, materializeBucket rl.defaultRate rl.defaultCapacity store now clientID)
            :: rl.buckets },
      createTrace store)

/-- `Allow` (ratelimiter.go:361-384): disabled engines admit everything;
otherwise find or create the bucket and apply the ε-tolerant decision.
`Allow` itself performs no refill (line 371: the background ticker does). -/
def Allow (rl : RateLimiter) (store : StoreModel) (now : ℚ) (clientID : String) :
    Bool × RateLimiter :=
  if rl.enabled then
    ((allowDecision (getOrCreateBucket rl store now clientID).1).1,
      setBucket (getOrCreateBucket rl store now clientID).2.1 clientID
        (allowDecision (getOrCreateBucket rl store now clientID).1).2)
  else (true, rl)

/-! ## JSON error responses (src/internal/response/json.go) -/

/-- The fragment of JSON needed by the error body. -/
inductive Json
  | num (n : Int)
  | str (s : String)
  | obj (fields : List (String × Json))

/-- `ErrorResponse` (json.go): `Code int` and `Message string`, serialized
under the JSON keys `code` and `message`. -/
structure ErrorResponse where
  code : Int
  message : String

/-- `json.Marshal` of an `ErrorResponse`: a two-field object in struct
declaration order.  Marshalling this struct cannot fail. -/
def marshalErrorResponse (e : ErrorResponse) : Json :=
  Json.obj [("code", Json.num e.code), ("message", Json.str e.message)]

/-- An HTTP response as the responder produces it. -/
structure HttpResponse where
  status : Int
  contentType : String
  body : Json

/-- `RespondWithJSON` (json.go): sets `Content-Type: application/json`,
writes the status code and the marshalled payload. -/
def RespondWithJSON (statusCode : Int) (payload : Json) : HttpResponse :=
  { status := statusCode, contentType := "application/json", body := payload }

/-- `RespondWithError` (json.go): wraps the status and message in an
`ErrorResponse` and delegates to `RespondWithJSON`. -/
def RespondWithError (statusCode : Int) (message : String) : HttpResponse :=
  RespondWithJSON statusCode (marshalErrorResponse { code := statusCode, message := message })

/-- The 429 response of `ServeHTTP` (balancer.go:243). -/
def rateLimitedResponse : HttpResponse :=
  RespondWithError 429 "Rate limit exceeded"

/-- The 502 response of the proxy `ErrorHandler` (balancer.go:144). -/
def proxyErrorResponse : HttpResponse :=
  RespondWithError 502 "Bad Gateway from Custom Handler"

/-- The 503 response of `ServeHTTP` (balancer.go:265). -/
def noHealthyBackendsResponse : HttpResponse :=
  RespondWithError 503 "All backend servers are unavailable"

/-- The body shape required by the spec: exactly
an object with an integer `code` and a string `message`. -/
def isCodeMessageBody (j : Json) : Prop :=
  ∃ c m, j = Json.obj [("code", Json.num c), ("message", Json.str m)]

/-! ## Client identification (ratelimiter.go:394-427)

The Go standard library pieces are modelled executably: splitting and
trimming are defined on the character list underlying a `String`, IP
validation is dotted-quad IPv4 (`goNet` documents the restriction). -/

/-- ASCII whitespace, the fragment of `strings.TrimSpace` exercised here. -/
def isSpaceChar (c : Char) : Bool :=
  c = ' ' || c = '\t' || c = '\n' || c = '\r'

/-- Split a character list at every occurrence of `sep`
(the semantics of Go `strings.Split` on the separators used here). -/
def splitCharList (sep : Char) : List Char → List (List Char)
  | [] => [[]]
  | c :: rest =>
    if c = sep then [] :: splitCharList sep rest
    else
      match splitCharList sep rest with
      | [] => [[c]]
      | h :: t => (c :: h) :: t

/-- `strings.Split s (String.singleton sep)` as a `String` operation. -/
def splitOnChar (sep : Char) (s : String) : List String :=
  (splitCharList sep s.data).map String.mk

/-- `strings.TrimSpace` restricted to ASCII whitespace. -/
def trimSpace (s : String) : String :=
  String.mk (((s.data.dropWhile isSpaceChar).reverse.dropWhile isSpaceChar).reverse)

/-- Decimal value of a digit string. -/
def decimalValue (cs : List Char) : Nat :=
  cs.foldl (fun a c => a * 10 + (c.toNat - 48)) 0

/-- One dotted-quad component: 1-3 digits, no leading zero (Go ≥ 1.17
`net.ParseIP` rejects them), value at most 255. -/
def octetOk (s : String) : Bool :=
  !s.data.isEmpty && decide (s.data.length ≤ 3) && s.data.all Char.isDigit &&
    (s == "0" || s.data.headD ' ' != '0') && decide (decimalValue s.data ≤ 255)

/-- Dotted-quad IPv4 validity. -/
def isIPv4 (s : String) : Bool :=
  (splitOnChar '.' s).length == 4 && (splitOnChar '.' s).all octetOk

/-- The networking primitives `GetClientID` calls, abstracted:
`isValidIP s` models `net.ParseIP(s) != nil`, `splitHostPort` models
`net.SplitHostPort` returning the host on success. -/
structure NetModel where
  isValidIP : String → Bool
  splitHostPort : String → Option String

/-- Concrete model of the Go standard library on the inputs used here:
IPv4-only validation, and host:port splitting that succeeds exactly on a
single colon (the bracketed IPv6 form is not needed by any theorem). -/
def goNet : NetModel :=
  { isValidIP := isIPv4
    splitHostPort := fun s =>
      match splitOnChar ':' s with
      | [host, _] => some host
      | _ => none }

/-- An HTTP request as `GetClientID` observes it: canonical header lookup
(`Header.Get`, empty string when absent) and `RemoteAddr`. -/
structure HttpRequest where
  header : String → String
  remoteAddr : String

/-- The X-Forwarded-For scan (ratelimiter.go:407-414): comma-split, trim
each part, return the first non-empty syntactically valid IP. -/
def firstValidXFFIP (netm : NetModel) (xff : String) : Option String :=
  (splitOnChar ',' xff).findSome? fun part =>
    if trimSpace part ≠ "" ∧ netm.isValidIP (trimSpace part) = true then
      some (trimSpace part)
    else none

/-- The X-Forwarded-For step guarded by the non-empty check of
ratelimiter.go:406. -/
def xffCandidate (netm : NetModel) (xff : String) : Option String :=
  if xff ≠ "" then firstValidXFFIP netm xff else none

/-- `GetClientID` (ratelimiter.go:394-427): configured header if set and
non-empty on the request; else first valid X-Forwarded-For IP; else the host
portion of `RemoteAddr` provided `SplitHostPort` succeeds AND that host is a
valid IP (lines 417-422); else the raw `RemoteAddr`. -/
def GetClientID (netm : NetModel) (rl : RateLimiter) (r : HttpRequest) : String :=
  if rl.identifierHeader ≠ "" ∧ r.header rl.identifierHeader ≠ "" then
    r.header rl.identifierHeader
  else
    match xffCandidate netm (r.header "X-Forwarded-For") with
    | some ip => ip
    | none =>
      match netm.splitHostPort r.remoteAddr with
      | some host => if netm.isValidIP host then host else r.remoteAddr
      | none => r.remoteAddr

/-- The claim's reading of the fallback chain, following the spec's words
("otherwise the host portion of the remote address; otherwise the raw
remote address"): the host portion is used whenever `SplitHostPort`
succeeds, with no validity requirement on it.  Declared only to be compared
with `GetClientID`. -/
def specClientID (netm : NetModel) (rl : RateLimiter) (r : HttpRequest) : String :=
  if rl.identifierHeader ≠ "" ∧ r.header rl.identifierHeader ≠ "" then
    r.header rl.identifierHeader
  else
    match xffCandidate netm (r.header "X-Forwarded-For") with
    | some ip => ip
    | none =>
      match netm.splitHostPort r.remoteAddr with
      | some host => host
      | none => r.remoteAddr

/-! ## Concrete instances used by witnesses and counterexamples -/

/-- A limiter call with no backing store (`rl.store == nil`). -/
def storeAbsent : StoreModel :=
  { present := false, supportsState := false, isStateStore := false
    limitConfig := fun _ => some none, savedState := fun _ => some none }

/-- A store that is present, supports state persistence, and implements
`StateStore`, with no per-client records. -/
def storeFull : StoreModel :=
  { present := true, supportsState := true, isStateStore := true
    limitConfig := fun _ => some none, savedState := fun _ => some none }

/-- A freshly constructed enabled limiter: no buckets, defaults
rate 1 tok/s, capacity 2, identification by IP. -/
def rlFresh : RateLimiter :=
  { buckets := [], enabled := true, defaultRate := 1, defaultCapacity := 2
    identifierHeader := "" }

/-- An enabled limiter whose client `c` has an empty bucket. -/
def rlDrained : RateLimiter :=
  { buckets := [("c", { capacity := 2, rate := 1, tokens := 0, lastRefill := 5 })]
    enabled := true, defaultRate := 1, defaultCapacity := 2, identifierHeader := "" }

/-- A limiter configured to identify clients by the `X-Client-ID` header. -/
def rlHdr : RateLimiter :=
  { buckets := [], enabled := true, defaultRate := 1, defaultCapacity := 1
    identifierHeader := "X-Client-ID" }

/-- A request carrying only the identifier header. -/
def reqHdr : HttpRequest :=
  { header := fun n => if n = "X-Client-ID" then "alice" else ""
    remoteAddr := "9.9.9.9:1" }

/-- A request with no headers whose remote address has a non-IP host. -/
def reqLocal : HttpRequest :=
  { header := fun _ => "", remoteAddr := "localhost:8080" }

/-- A request with no headers and a plain IPv4 remote address. -/
def reqIp : HttpRequest :=
  { header := fun _ => "", remoteAddr := "192.0.2.7:3456" }

end LB

namespace LB

/-! ## Helper lemmas -/

theorem floatEpsilon_pos : 0 < floatEpsilon := by norm_num [floatEpsilon]

theorem refill_capacity (tb : TokenBucket) (now : ℚ) :
    (tb.refill now).capacity = tb.capacity := by
  unfold TokenBucket.refill
  split_ifs <;> rfl

theorem refill_lastRefill_mono (tb : TokenBucket) (now : ℚ) (h0 : 0 ≤ now) :
    tb.lastRefill ≤ (tb.refill now).lastRefill := by
  unfold TokenBucket.refill
  split_ifs with h1 h2
  · simp only
    rw [h1]
    exact h0
  · exact le_refl _
  · push_neg at h2
    simp only
    linarith [h2.1]

theorem refill_tokens_bounds (tb : TokenBucket) (now lb : ℚ) (hlb : lb ≤ 0)
    (hc : 0 < tb.capacity) (hl : lb ≤ tb.tokens) (hu : tb.tokens ≤ tb.capacity) :
    lb ≤ (tb.refill now).tokens ∧ (tb.refill now).tokens ≤ tb.capacity := by
  unfold TokenBucket.refill
  split_ifs with h1 h2
  · exact ⟨hl, hu⟩
  · exact ⟨hl, hu⟩
  · push_neg at h2
    simp only [goMin]
    split_ifs with h3
    · exact ⟨by linarith, le_refl _⟩
    · constructor
      · have : 0 ≤ (now - tb.lastRefill) * tb.rate :=
          le_of_lt (mul_pos h2.1 h2.2)
        linarith
      · linarith [not_lt.mp h3]

theorem lookup_setBucket (l : List (String × TokenBucket)) (cid : String) (b : TokenBucket)
    (h : (l.lookup cid).isSome = true) :
    (l.map fun p => if p.1 = cid then (cid, b) else p).lookup cid = some b := by
  induction l with
  | nil => simp [List.lookup] at h
  | cons hd tl ih =>
    obtain ⟨k, v⟩ := hd
    simp only [List.map_cons]
    by_cases hc : k = cid
    · subst hc
      rw [if_pos rfl]
      simp [List.lookup]
    · rw [if_neg hc]
      have hne : (cid == k) = false := by
        simp only [beq_eq_false_iff_ne, ne_eq]
        exact fun he => hc he.symm
      simp only [List.lookup, hne] at h ⊢
      exact ih h

theorem getOrCreateBucket_lookup (rl : RateLimiter) (store : StoreModel) (now : ℚ)
    (cid : String) :
    (getOrCreateBucket rl store now cid).2.1.buckets.lookup cid =
      some (getOrCreateBucket rl store now cid).1 := by
  unfold getOrCreateBucket
  cases hl : rl.buckets.lookup cid with
  | some bucket =>
    simp only [setBucket]
    exact lookup_setBucket _ _ _ (by rw [hl]; rfl)
  | none =>
    simp [List.lookup]

theorem allow_spec (rl : RateLimiter) (store : StoreModel) (now : ℚ) (cid : String)
    (hen : rl.enabled = true) :
    ((Allow rl store now cid).1 = true ↔
        (getOrCreateBucket rl store now cid).1.tokens ≥ 1 - floatEpsilon) ∧
    ((Allow rl store now cid).1 = true →
      (Allow rl store now cid).2.buckets.lookup cid =
        some { (getOrCreateBucket rl store now cid).1 with
                 tokens := (getOrCreateBucket rl store now cid).1.tokens - 1 }) ∧
    ((Allow rl store now cid).1 = false →
      (Allow rl store now cid).2.buckets.lookup cid =
        some (getOrCreateBucket rl store now cid).1) := by
  have hg := getOrCreateBucket_lookup rl store now cid
  unfold Allow
  rw [hen]
  simp only [if_true]
  by_cases hd : (getOrCreateBucket rl store now cid).1.tokens ≥ 1 - floatEpsilon
  · simp only [allowDecision, if_pos hd]
    refine ⟨by simpa using hd, fun _ => ?_, by simp⟩
    exact lookup_setBucket _ _ _ (by rw [hg]; rfl)
  · simp only [allowDecision, if_neg hd]
    refine ⟨by simpa using hd, by simp, fun _ => ?_⟩
    have hgoal := lookup_setBucket (getOrCreateBucket rl store now cid).2.1.buckets cid
      (getOrCreateBucket rl store now cid).1 (by rw [hg]; rfl)
    simpa [setBucket] using hgoal

end LB

namespace LB

theorem resolvedConfig_capacity_pos (dr dc : ℚ) (store : StoreModel) (cid : String)
    (hdc : 0 < dc) (hcfg : ∀ rc, store.limitConfig cid = some (some rc) → 0 < rc.2) :
    0 < (resolvedConfig dr dc store cid).2 := by
  unfold resolvedConfig
  split_ifs with hp
  · cases hlc : store.limitConfig cid with
    | none => simpa using hdc
    | some o =>
      cases o with
      | none => simpa using hdc
      | some rc => simpa using hcfg rc hlc
  · simpa using hdc

theorem resolvedState_bounds (cap : ℚ) (store : StoreModel) (cid : String)
    (hcap : 0 < cap) (hsv : ∀ st, store.savedState cid = some (some st) → 0 ≤ st.1) :
    0 ≤ (resolvedState cap store cid).1 ∧ (resolvedState cap store cid).1 ≤ cap := by
  unfold resolvedState
  split_ifs with hp
  · cases hs : store.savedState cid with
    | none =>
      simp only [hs]
      exact ⟨le_of_lt hcap, le_refl cap⟩
    | some o =>
      cases o with
      | none =>
        simp only [hs]
        exact ⟨le_of_lt hcap, le_refl cap⟩
      | some s =>
        simp only [hs]
        split_ifs with hgt
        · exact ⟨le_of_lt hcap, le_refl cap⟩
        · exact ⟨hsv s hs, not_lt.mp hgt⟩
  · exact ⟨le_of_lt hcap, le_refl cap⟩

theorem materialize_bounds (dr dc : ℚ) (store : StoreModel) (now : ℚ) (cid : String)
    (hdc : 0 < dc) (hcfg : ∀ rc, store.limitConfig cid = some (some rc) → 0 < rc.2)
    (hsv : ∀ st, store.savedState cid = some (some st) → 0 ≤ st.1) :
    0 ≤ (materializeBucket dr dc store now cid).tokens ∧
      (materializeBucket dr dc store now cid).tokens ≤
        (materializeBucket dr dc store now cid).capacity := by
  have hc := resolvedConfig_capacity_pos dr dc store cid hdc hcfg
  have hs := resolvedState_bounds (resolvedConfig dr dc store cid).2 store cid hc hsv
  unfold materializeBucket
  rw [refill_capacity]
  exact refill_tokens_bounds _ now 0 (le_refl 0) hc hs.1 hs.2

/-- C2 (counterexample): the claimed invariant `0 ≤ tokens ≤ capacity` fails.
Concrete run: a fresh default bucket (capacity 2, rate 1, materialized at
t = 10 s) admits two requests, is refilled at t = 11 − 10⁻⁹ s to exactly
`1 − floatEpsilon` tokens — a state inside `[0, capacity]` — and the next
`Allow` admits (the ε-tolerant test passes) and deducts 1, leaving
`tokens = −10⁻⁹ < 0`. -/
theorem claim_C2_counterexample :
    0 ≤ (TokenBucket.refill (allowDecision (allowDecision
          (materializeBucket 1 2 storeAbsent 10 "c")).2).2 (11 - floatEpsilon)).tokens ∧
    (TokenBucket.refill (allowDecision (allowDecision
          (materializeBucket 1 2 storeAbsent 10 "c")).2).2 (11 - floatEpsilon)).tokens ≤
      (TokenBucket.refill (allowDecision (allowDecision
          (materializeBucket 1 2 storeAbsent 10 "c")).2).2 (11 - floatEpsilon)).capacity ∧
    (allowDecision (TokenBucket.refill (allowDecision (allowDecision
          (materializeBucket 1 2 storeAbsent 10 "c")).2).2 (11 - floatEpsilon))).1 = true ∧
    (allowDecision (TokenBucket.refill (allowDecision (allowDecision
          (materializeBucket 1 2 storeAbsent 10 "c")).2).2 (11 - floatEpsilon))).2.tokens < 0 := by
  norm_num [materializeBucket, resolvedConfig, resolvedState, storeAbsent,
    TokenBucket.refill, goMin, allowDecision, floatEpsilon]

/-- C2 (amended): every bucket-mutating operation keeps the token count
within `[-floatEpsilon, capacity]` (ε = 10⁻⁹); moreover `refill` and quota
reconciliation (`updateBucketIfNeeded` with positive new capacity) preserve
`[0, capacity]`, and materialization from a saved state with non-negative
tokens yields tokens within `[0, capacity]`; only `Allow`'s ε-tolerant
deduction can push the count below zero, and by at most ε (the
counterexample realizes exactly `-floatEpsilon`). -/
theorem claim_C2_amended :
    (∀ (tb : TokenBucket) (now : ℚ), 0 < tb.capacity →
        -floatEpsilon ≤ tb.tokens → tb.tokens ≤ tb.capacity →
        -floatEpsilon ≤ (tb.refill now).tokens ∧
          (tb.refill now).tokens ≤ (tb.refill now).capacity) ∧
    (∀ (tb : TokenBucket) (now : ℚ), 0 < tb.capacity →
        0 ≤ tb.tokens → tb.tokens ≤ tb.capacity →
        0 ≤ (tb.refill now).tokens ∧
          (tb.refill now).tokens ≤ (tb.refill now).capacity) ∧
    (∀ tb : TokenBucket, -floatEpsilon ≤ tb.tokens → tb.tokens ≤ tb.capacity →
        -floatEpsilon ≤ (allowDecision tb).2.tokens ∧
          (allowDecision tb).2.tokens ≤ (allowDecision tb).2.capacity) ∧
    (∀ (tb : TokenBucket) (nr nc : ℚ), 0 < nc →
        -floatEpsilon ≤ tb.tokens → tb.tokens ≤ tb.capacity →
        -floatEpsilon ≤ (updateBucketIfNeeded tb nr nc).tokens ∧
          (updateBucketIfNeeded tb nr nc).tokens ≤ (updateBucketIfNeeded tb nr nc).capacity) ∧
    (∀ (tb : TokenBucket) (nr nc : ℚ), 0 < nc →
        0 ≤ tb.tokens → tb.tokens ≤ tb.capacity →
        0 ≤ (updateBucketIfNeeded tb nr nc).tokens ∧
          (updateBucketIfNeeded tb nr nc).tokens ≤ (updateBucketIfNeeded tb nr nc).capacity) ∧
    (∀ (dr dc : ℚ) (store : StoreModel) (now : ℚ) (cid : String), 0 < dc →
        (∀ rc, store.limitConfig cid = some (some rc) → 0 < rc.2) →
        (∀ st, store.savedState cid = some (some st) → 0 ≤ st.1) →
        0 ≤ (materializeBucket dr dc store now cid).tokens ∧
          (materializeBucket dr dc store now cid).tokens ≤
            (materializeBucket dr dc store now cid).capacity) := by
  have hup : ∀ (tb : TokenBucket) (nr nc lb : ℚ), lb ≤ 0 → 0 < nc →
      lb ≤ tb.tokens → tb.tokens ≤ tb.capacity →
      lb ≤ (updateBucketIfNeeded tb nr nc).tokens ∧
        (updateBucketIfNeeded tb nr nc).tokens ≤ (updateBucketIfNeeded tb nr nc).capacity := by
    intro tb nr nc lb hlb hnc hl hu
    unfold updateBucketIfNeeded
    split_ifs with h1 h2
    · simp only
      exact ⟨by linarith, le_refl nc⟩
    · simp only
      exact ⟨hl, not_lt.mp h2⟩
    · exact ⟨hl, hu⟩
  refine ⟨?_, ?_, ?_, ?_, ?_, ?_⟩
  · intro tb now hcap hl hu
    rw [refill_capacity]
    exact refill_tokens_bounds tb now (-floatEpsilon)
      (by linarith [floatEpsilon_pos]) hcap hl hu
  · intro tb now hcap hl hu
    rw [refill_capacity]
    exact refill_tokens_bounds tb now 0 (le_refl 0) hcap hl hu
  · intro tb hl hu
    unfold allowDecision
    split_ifs with hd
    · simp only
      constructor
      · linarith
      · linarith
    · exact ⟨hl, hu⟩
  · intro tb nr nc hnc hl hu
    exact hup tb nr nc (-floatEpsilon) (by linarith [floatEpsilon_pos]) hnc hl hu
  · intro tb nr nc hnc hl hu
    exact hup tb nr nc 0 (le_refl 0) hnc hl hu
  · intro dr dc store now cid hdc hcfg hsv
    exact materialize_bounds dr dc store now cid hdc hcfg hsv

/-- C2 (amended, witness): the six parts applied at concrete inputs. -/
theorem claim_C2_amended_witness :
    (-floatEpsilon ≤ ((⟨2, 1, 1, 10⟩ : TokenBucket).refill 11).tokens ∧
      ((⟨2, 1, 1, 10⟩ : TokenBucket).refill 11).tokens ≤
        ((⟨2, 1, 1, 10⟩ : TokenBucket).refill 11).capacity) ∧
    (0 ≤ ((⟨2, 1, 1, 10⟩ : TokenBucket).refill 11).tokens ∧
      ((⟨2, 1, 1, 10⟩ : TokenBucket).refill 11).tokens ≤
        ((⟨2, 1, 1, 10⟩ : TokenBucket).refill 11).capacity) ∧
    (-floatEpsilon ≤ (allowDecision ⟨2, 1, 1, 10⟩).2.tokens ∧
      (allowDecision ⟨2, 1, 1, 10⟩).2.tokens ≤ (allowDecision ⟨2, 1, 1, 10⟩).2.capacity) ∧
    (-floatEpsilon ≤ (updateBucketIfNeeded ⟨2, 1, 1, 10⟩ 3 1).tokens ∧
      (updateBucketIfNeeded ⟨2, 1, 1, 10⟩ 3 1).tokens ≤
        (updateBucketIfNeeded ⟨2, 1, 1, 10⟩ 3 1).capacity) ∧
    (0 ≤ (updateBucketIfNeeded ⟨2, 1, 1, 10⟩ 3 1).tokens ∧
      (updateBucketIfNeeded ⟨2, 1, 1, 10⟩ 3 1).tokens ≤
        (updateBucketIfNeeded ⟨2, 1, 1, 10⟩ 3 1).capacity) ∧
    (0 ≤ (materializeBucket 1 2 storeAbsent 0 "c").tokens ∧
      (materializeBucket 1 2 storeAbsent 0 "c").tokens ≤
        (materializeBucket 1 2 storeAbsent 0 "c").capacity) :=
  ⟨claim_C2_amended.1 ⟨2, 1, 1, 10⟩ 11 (by norm_num) (by norm_num [floatEpsilon]) (by norm_num),
   claim_C2_amended.2.1 ⟨2, 1, 1, 10⟩ 11 (by norm_num) (by norm_num) (by norm_num),
   claim_C2_amended.2.2.1 ⟨2, 1, 1, 10⟩ (by norm_num [floatEpsilon]) (by norm_num),
   claim_C2_amended.2.2.2.1 ⟨2, 1, 1, 10⟩ 3 1 (by norm_num) (by norm_num [floatEpsilon]) (by norm_num),
   claim_C2_amended.2.2.2.2.1 ⟨2, 1, 1, 10⟩ 3 1 (by norm_num) (by norm_num) (by norm_num),
   claim_C2_amended.2.2.2.2.2 1 2 storeAbsent 0 "c" (by norm_num)
     (by intro rc h; simp [storeAbsent] at h)
     (by intro st h; simp [storeAbsent] at h)⟩

/-- C3: for an enabled engine, `Allow(clientID)` returns true iff the
client's bucket holds `tokens ≥ 1 − floatEpsilon` at decision time (i.e.
after `getOrCreateBucket`), and exactly in that case the bucket is left with
one token deducted; on deny it is left exactly as it was. -/
theorem claim_C3 (rl : RateLimiter) (store : StoreModel) (now : ℚ) (cid : String)
    (hen : rl.enabled = true) :
    ((Allow rl store now cid).1 = true ↔
        (getOrCreateBucket rl store now cid).1.tokens ≥ 1 - floatEpsilon) ∧
    ((Allow rl store now cid).1 = true →
      (Allow rl store now cid).2.buckets.lookup cid =
        some { (getOrCreateBucket rl store now cid).1 with
                 tokens := (getOrCreateBucket rl store now cid).1.tokens - 1 }) ∧
    ((Allow rl store now cid).1 = false →
      (Allow rl store now cid).2.buckets.lookup cid =
        some (getOrCreateBucket rl store now cid).1) :=
  allow_spec rl store now cid hen

/-- C3 (witness): a fresh enabled limiter with defaults rate 1, capacity 2,
first request of client `c` at t = 5 s. -/
theorem claim_C3_witness :
    ((Allow rlFresh storeAbsent 5 "c").1 = true ↔
        (getOrCreateBucket rlFresh storeAbsent 5 "c").1.tokens ≥ 1 - floatEpsilon) ∧
    ((Allow rlFresh storeAbsent 5 "c").1 = true →
      (Allow rlFresh storeAbsent 5 "c").2.buckets.lookup "c" =
        some { (getOrCreateBucket rlFresh storeAbsent 5 "c").1 with
                 tokens := (getOrCreateBucket rlFresh storeAbsent 5 "c").1.tokens - 1 }) ∧
    ((Allow rlFresh storeAbsent 5 "c").1 = false →
      (Allow rlFresh storeAbsent 5 "c").2.buckets.lookup "c" =
        some (getOrCreateBucket rlFresh storeAbsent 5 "c").1) :=
  claim_C3 rlFresh storeAbsent 5 "c" rfl

/-- C4: the per-bucket `refill` follows the spec's algorithm exactly: zero
`lastRefill` is set to `now` with tokens untouched; elapsed ≤ 0 or rate ≤ 0
changes nothing; otherwise tokens become
`min(capacity, tokens + elapsed·rate)` and `lastRefill` advances to `now`;
`goMin` is the mathematical `min`; and `lastRefill` never moves backward
(for the real clock, `0 ≤ now`). -/
theorem claim_C4 (tb : TokenBucket) (now : ℚ) (h0 : 0 ≤ now) :
    (tb.lastRefill = 0 → tb.refill now = { tb with lastRefill := now }) ∧
    (tb.lastRefill ≠ 0 → (now - tb.lastRefill ≤ 0 ∨ tb.rate ≤ 0) → tb.refill now = tb) ∧
    (tb.lastRefill ≠ 0 → 0 < now - tb.lastRefill → 0 < tb.rate →
      tb.refill now =
        { tb with
            tokens := goMin tb.capacity (tb.tokens + (now - tb.lastRefill) * tb.rate),
            lastRefill := now }) ∧
    (∀ a b : ℚ, goMin a b = min a b) ∧
    tb.lastRefill ≤ (tb.refill now).lastRefill := by
  refine ⟨?_, ?_, ?_, ?_, refill_lastRefill_mono tb now h0⟩
  · intro h1
    unfold TokenBucket.refill
    rw [if_pos h1]
  · intro h1 h2
    unfold TokenBucket.refill
    rw [if_neg h1, if_pos h2]
  · intro h1 h2 h3
    unfold TokenBucket.refill
    rw [if_neg h1, if_neg (by push_neg; exact ⟨h2, h3⟩)]
  · intro a b
    unfold goMin
    rcases lt_or_ge a b with h | h
    · rw [if_pos h]
      exact (min_eq_left (le_of_lt h)).symm
    · rw [if_neg (not_lt.mpr h)]
      exact (min_eq_right h).symm

/-- C4 (witness): a bucket with zero `lastRefill` refilled at t = 3 s. -/
theorem claim_C4_witness :
    0 ≤ (3 : ℚ) ∧
    (((⟨2, 1, 1, 0⟩ : TokenBucket).lastRefill = 0 →
        (⟨2, 1, 1, 0⟩ : TokenBucket).refill 3 =
          { (⟨2, 1, 1, 0⟩ : TokenBucket) with lastRefill := 3 }) ∧
      ((⟨2, 1, 1, 0⟩ : TokenBucket).lastRefill ≠ 0 →
        (3 - (⟨2, 1, 1, 0⟩ : TokenBucket).lastRefill ≤ 0 ∨
            (⟨2, 1, 1, 0⟩ : TokenBucket).rate ≤ 0) →
        (⟨2, 1, 1, 0⟩ : TokenBucket).refill 3 = ⟨2, 1, 1, 0⟩) ∧
      ((⟨2, 1, 1, 0⟩ : TokenBucket).lastRefill ≠ 0 →
        0 < 3 - (⟨2, 1, 1, 0⟩ : TokenBucket).lastRefill →
        0 < (⟨2, 1, 1, 0⟩ : TokenBucket).rate →
        (⟨2, 1, 1, 0⟩ : TokenBucket).refill 3 =
          { (⟨2, 1, 1, 0⟩ : TokenBucket) with
              tokens := goMin (⟨2, 1, 1, 0⟩ : TokenBucket).capacity
                ((⟨2, 1, 1, 0⟩ : TokenBucket).tokens +
                  (3 - (⟨2, 1, 1, 0⟩ : TokenBucket).lastRefill) *
                    (⟨2, 1, 1, 0⟩ : TokenBucket).rate),
              lastRefill := 3 }) ∧
      (∀ a b : ℚ, goMin a b = min a b) ∧
      (⟨2, 1, 1, 0⟩ : TokenBucket).lastRefill ≤
        ((⟨2, 1, 1, 0⟩ : TokenBucket).refill 3).lastRefill) :=
  ⟨by norm_num, claim_C4 ⟨2, 1, 1, 0⟩ 3 (by norm_num)⟩

/-- C10: for an enabled engine, whenever `Allow` returns false the client's
bucket is left exactly as it was at decision time — no field changes. -/
theorem claim_C10 (rl : RateLimiter) (store : StoreModel) (now : ℚ) (cid : String)
    (hen : rl.enabled = true) (hden : (Allow rl store now cid).1 = false) :
    (Allow rl store now cid).2.buckets.lookup cid =
      some (getOrCreateBucket rl store now cid).1 :=
  (allow_spec rl store now cid hen).2.2 hden

/-- C10 (witness): a drained bucket (0 tokens) denies and is unchanged. -/
theorem claim_C10_witness :
    (Allow rlDrained storeAbsent 6 "c").2.buckets.lookup "c" =
      some (getOrCreateBucket rlDrained storeAbsent 6 "c").1 :=
  claim_C10 rlDrained storeAbsent 6 "c" rfl (by
    norm_num [Allow, rlDrained, storeAbsent, getOrCreateBucket, List.lookup,
      reconcileLimits, updateBucketIfNeeded, allowDecision, floatEpsilon])

end LB

namespace LB

theorem findSome?_range_zero_hit {α : Type} (n : Nat) (f : Nat → Option α) (b : α)
    (hn : n ≠ 0) (h0 : f 0 = some b) : (List.range n).findSome? f = some b := by
  obtain ⟨m, hm⟩ := Nat.exists_eq_succ_of_ne_zero hn
  subst hm
  rw [List.range_succ_eq_map, List.findSome?_cons, h0]

theorem rrSelect_first (alive : List Bool) (c : Nat) (hn : alive.length ≠ 0)
    (hc : c + 1 < U64) (ha : alive.getD (c % alive.length) false = true) :
    (getRoundRobinHealthyBackend { alive := alive, current := c }).1 =
      some (c % alive.length) := by
  have hidx : rrScanIdx ((c + 1) % U64) alive.length 0 = c % alive.length := by
    rw [Nat.mod_eq_of_lt hc]
    unfold rrScanIdx
    have h1 : c + 1 + 0 + (U64 - 1) = c + U64 := by
      have h2 : 1 ≤ U64 := by norm_num [U64]
      omega
    rw [h1, Nat.add_mod_right, Nat.mod_eq_of_lt (show c < U64 by omega)]
  unfold getRoundRobinHealthyBackend
  rw [if_neg hn]
  exact findSome?_range_zero_hit alive.length _ _ hn (by rw [hidx, ha, if_pos rfl])

theorem rrRun_map (alive : List Bool) (hn : alive.length ≠ 0) :
    ∀ (k c : Nat), c + k < U64 →
      rrRun { alive := alive, current := c } k =
        (List.range k).map (fun t =>
          (getRoundRobinHealthyBackend { alive := alive, current := c + t }).1) := by
  intro k
  induction k with
  | zero => intro c _; rfl
  | succ m ih =>
    intro c hw
    have hstep : (getRoundRobinHealthyBackend { alive := alive, current := c }).2 =
        { alive := alive, current := c + 1 } := by
      unfold getRoundRobinHealthyBackend
      rw [if_neg hn]
      simp only
      rw [Nat.mod_eq_of_lt (show c + 1 < U64 by omega)]
    rw [show rrRun { alive := alive, current := c } (m + 1) =
        (getRoundRobinHealthyBackend { alive := alive, current := c }).1 ::
          rrRun (getRoundRobinHealthyBackend { alive := alive, current := c }).2 m from rfl]
    rw [hstep, ih (c + 1) (by omega)]
    rw [List.range_succ_eq_map, List.map_cons, List.map_map, List.cons.injEq]
    refine ⟨?_, ?_⟩
    · exact congrArg
        (fun x => (getRoundRobinHealthyBackend { alive := alive, current := x }).1)
        (by omega)
    · apply List.map_congr_left
      intro t _
      simp only [Function.comp]
      exact congrArg
        (fun x => (getRoundRobinHealthyBackend { alive := alive, current := x }).1)
        (by omega)

theorem offset_mod_aux (n q r j : Nat) (hr : r < n) (hj : j < n) :
    (n * q + r + (j + (n - r)) % n) % n = j := by
  have h1 : (n * q + r + (j + (n - r)) % n) % n = (n * q + r + (j + (n - r))) % n :=
    Nat.add_mod_mod _ _ _
  have h2 : n * q + r + (j + (n - r)) = n * q + n + j := by omega
  have h3 : n * q + n + j = n * (q + 1) + j := by ring
  rw [h1, h2, h3, Nat.mul_add_mod, Nat.mod_eq_of_lt hj]

theorem offset_mod (c n j : Nat) (hj : j < n) :
    (c + (j + (n - c % n)) % n) % n = j := by
  have hn : 0 < n := lt_of_le_of_lt (Nat.zero_le j) hj
  have h := offset_mod_aux n (c / n) (c % n) j (Nat.mod_lt c hn) hj
  rw [Nat.div_add_mod c n] at h
  exact h

/-- C1: evaluation of the code at the failing input.  From a fresh pool of
3 alive backends the first six selections are `0, 1, 2, 0, 1, 2` exactly as
claimed; but at cursor value `2^64 − 1` (the state reached after `2^64 − 1`
selections — the `atomic.Uint64` cursor wraps) the next three consecutive
selections over the same 3 alive backends are `0, 0, 1`: index 0 twice and
index 2 never, violating "each backend index exactly once". -/
theorem claim_C1_wrap_eval :
    rrRun (newPool 3) 6 = [some 0, some 1, some 2, some 0, some 1, some 2] ∧
    rrRun { alive := [true, true, true], current := U64 - 1 } 3 =
      [some 0, some 0, some 1] ∧
    (rrRun { alive := [true, true, true], current := U64 - 1 } 3).count (some 0) = 2 ∧
    (rrRun { alive := [true, true, true], current := U64 - 1 } 3).count (some 2) = 0 := by
  decide

set_option maxRecDepth 4000 in
/-- C5: evaluation of the code at the failing input.  With backends
`[dead, dead, alive]` and the cursor at `2^64 − 1`, the uint64 expression
`(start + uint64(i) - 1) % numBackends` scans slots `0, 0, 1`, misses the
alive backend 2, and `getRoundRobinHealthyBackend` reports
`NoHealthyBackends` (`none`) although backend 2 is alive — so "fails iff
every backend is dead" does not hold at this reachable state. -/
theorem claim_C5_wrap_eval :
    [false, false, true].getD 2 false = true ∧
    (getRoundRobinHealthyBackend
        { alive := [false, false, true], current := U64 - 1 }).1 = none := by
  decide

set_option maxRecDepth 4000 in
/-- C6 (counterexample): with 4 backends of which the last two are dead and
a fresh cursor, the 4 consecutive selections are `0, 1, 0, 0`: alive backend
0 is chosen 3 times and alive backend 1 once — not "the same number of
times". -/
theorem claim_C6_counterexample :
    rrRun { alive := [true, true, false, false], current := 0 } 4 =
      [some 0, some 1, some 0, some 0] ∧
    (rrRun { alive := [true, true, false, false], current := 0 } 4).count (some 0) = 3 ∧
    (rrRun { alive := [true, true, false, false], current := 0 } 4).count (some 1) = 1 ∧
    [true, true, false, false].getD 0 false = true ∧
    [true, true, false, false].getD 1 false = true := by
  decide

/-- C6 (amended): under round-robin with a fixed alive set, across any N
consecutive selections (N = backend count) whose cursor values stay below
the `2^64` wrap, every alive backend is chosen at least once — but not
necessarily equally often: a backend that follows a run of dead slots
absorbs their turns (see the counterexample). -/
theorem claim_C6_amended (alive : List Bool) (c j : Nat)
    (hw : c + alive.length < U64) (hj : j < alive.length)
    (hja : alive.getD j false = true) :
    some j ∈ rrRun { alive := alive, current := c } alive.length := by
  have hn : alive.length ≠ 0 := by omega
  rw [rrRun_map alive hn alive.length c hw, List.mem_map]
  refine ⟨(j + (alive.length - c % alive.length)) % alive.length, ?_, ?_⟩
  · rw [List.mem_range]
    exact Nat.mod_lt _ (by omega)
  · have htn : (j + (alive.length - c % alive.length)) % alive.length < alive.length :=
      Nat.mod_lt _ (by omega)
    have hmod : (c + (j + (alive.length - c % alive.length)) % alive.length) %
        alive.length = j := offset_mod c alive.length j hj
    have hsel := rrSelect_first alive
      (c + (j + (alive.length - c % alive.length)) % alive.length) hn
      (by omega) (by rw [hmod]; exact hja)
    rw [hsel, hmod]

/-- C6 (amended, witness): with backends `[alive, dead]` and a fresh
cursor, backend 0 is chosen within 2 consecutive selections. -/
theorem claim_C6_amended_witness :
    some 0 ∈ rrRun { alive := [true, false], current := 0 } 2 :=
  claim_C6_amended [true, false] 0 0 (by norm_num [U64]) (by norm_num) rfl

/-- C7: every core failure response is produced by `RespondWithError`,
which always emits Content-Type `application/json` and a body that is
exactly the object with integer `code` (equal to the HTTP status) and
string `message`; the three core failures are the 429, 502 and 503
responses with their fixed messages. -/
theorem claim_C7 :
    (∀ (code : Int) (msg : String),
        (RespondWithError code msg).contentType = "application/json" ∧
        (RespondWithError code msg).status = code ∧
        (RespondWithError code msg).body =
          Json.obj [("code", Json.num code), ("message", Json.str msg)] ∧
        isCodeMessageBody (RespondWithError code msg).body) ∧
    rateLimitedResponse = RespondWithError 429 "Rate limit exceeded" ∧
    proxyErrorResponse = RespondWithError 502 "Bad Gateway from Custom Handler" ∧
    noHealthyBackendsResponse = RespondWithError 503 "All backend servers are unavailable" := by
  exact ⟨fun code msg => ⟨rfl, rfl, rfl, ⟨code, msg, rfl⟩⟩, rfl, rfl, rfl⟩

end LB

namespace LB

/-- C8 (counterexample): with no identifier header and no X-Forwarded-For,
for `RemoteAddr = "localhost:8080"` the code returns the raw remote address,
because the host portion `"localhost"` splits off fine but is not a
syntactically valid IP (ratelimiter.go:417-422 requires `net.ParseIP(ip) !=
nil`); the claim's chain returns the host portion `"localhost"`. -/
theorem claim_C8_counterexample :
    GetClientID goNet rlFresh reqLocal = "localhost:8080" ∧
    specClientID goNet rlFresh reqLocal = "localhost" ∧
    GetClientID goNet rlFresh reqLocal ≠ specClientID goNet rlFresh reqLocal := by
  decide

/-- C8 (amended): `GetClientID` never fails and returns the configured
identifier header's value when that header name is set and its value is
non-empty; otherwise the first syntactically valid IP of the comma-split
X-Forwarded-For header; otherwise the host portion of the remote address
provided that host portion is itself a syntactically valid IP; otherwise
the raw remote address string. -/
theorem claim_C8_amended (netm : NetModel) (rl : RateLimiter) (r : HttpRequest) :
    (rl.identifierHeader ≠ "" → r.header rl.identifierHeader ≠ "" →
        GetClientID netm rl r = r.header rl.identifierHeader) ∧
    (∀ ip, (rl.identifierHeader = "" ∨ r.header rl.identifierHeader = "") →
        xffCandidate netm (r.header "X-Forwarded-For") = some ip →
        GetClientID netm rl r = ip) ∧
    (∀ host, (rl.identifierHeader = "" ∨ r.header rl.identifierHeader = "") →
        xffCandidate netm (r.header "X-Forwarded-For") = none →
        netm.splitHostPort r.remoteAddr = some host →
        (netm.isValidIP host = true → GetClientID netm rl r = host) ∧
        (netm.isValidIP host = false → GetClientID netm rl r = r.remoteAddr)) ∧
    ((rl.identifierHeader = "" ∨ r.header rl.identifierHeader = "") →
        xffCandidate netm (r.header "X-Forwarded-For") = none →
        netm.splitHostPort r.remoteAddr = none →
        GetClientID netm rl r = r.remoteAddr) := by
  have hor : ∀ (hor : rl.identifierHeader = "" ∨ r.header rl.identifierHeader = ""),
      ¬(rl.identifierHeader ≠ "" ∧ r.header rl.identifierHeader ≠ "") := by
    rintro h ⟨ha, hb⟩
    rcases h with h | h
    · exact ha h
    · exact hb h
  refine ⟨?_, ?_, ?_, ?_⟩
  · intro h1 h2
    unfold GetClientID
    rw [if_pos ⟨h1, h2⟩]
  · intro ip h hxff
    unfold GetClientID
    rw [if_neg (hor h)]
    simp only [hxff]
  · intro host h hxff hsp
    constructor
    · intro hv
      unfold GetClientID
      rw [if_neg (hor h)]
      simp only [hxff, hsp, hv, if_true]
    · intro hv
      unfold GetClientID
      rw [if_neg (hor h)]
      simp only [hxff, hsp, hv, Bool.false_eq_true, if_false]
  · intro h hxff hsp
    unfold GetClientID
    rw [if_neg (hor h)]
    simp only [hxff, hsp]

/-- C8 (amended, witness): the header branch on a request carrying
`X-Client-ID: alice`, and the remote-address branch on a request from
`192.0.2.7:3456`. -/
theorem claim_C8_amended_witness :
    GetClientID goNet rlHdr reqHdr = "alice" ∧
    GetClientID goNet rlFresh reqIp = "192.0.2.7" :=
  ⟨((claim_C8_amended goNet rlHdr reqHdr).1 (by decide) (by decide)).trans (by decide),
   ((claim_C8_amended goNet rlFresh reqIp).2.2.1 "192.0.2.7" (Or.inl rfl)
       (by decide) (by decide)).1 (by decide)⟩

/-- C9 (counterexample): materializing the first-seen client `c` with a
store that is present and supports state yields the trace in which the map
write-lock (`rl.mu.Lock()`, ratelimiter.go:237) precedes the QuotaStore
lookup (line 284), and both store lookups sit strictly between the write
lock and its release (line 349) — refuting "the QuotaStore lookup completes
before the bucket-map write-lock is taken" and "never holds the map lock
across store I/O". -/
theorem claim_C9_counterexample :
    (getOrCreateBucket rlFresh storeFull 0 "c").2.2 =
      [LockEvent.mapRLock, LockEvent.mapRUnlock, LockEvent.mapWLock,
       LockEvent.quotaLookup, LockEvent.stateLookup, LockEvent.bucketLock,
       LockEvent.bucketUnlock, LockEvent.mapInsert, LockEvent.mapWUnlock] ∧
    ¬ (evIndex LockEvent.quotaLookup ((getOrCreateBucket rlFresh storeFull 0 "c").2.2) <
        evIndex LockEvent.mapWLock ((getOrCreateBucket rlFresh storeFull 0 "c").2.2)) ∧
    evIndex LockEvent.mapWLock ((getOrCreateBucket rlFresh storeFull 0 "c").2.2) <
      evIndex LockEvent.quotaLookup ((getOrCreateBucket rlFresh storeFull 0 "c").2.2) ∧
    evIndex LockEvent.quotaLookup ((getOrCreateBucket rlFresh storeFull 0 "c").2.2) <
      evIndex LockEvent.mapWUnlock ((getOrCreateBucket rlFresh storeFull 0 "c").2.2) := by
  decide

/-- C9 (amended): during materialization of a first-seen clientID with a
present store, the QuotaStore lookup happens after the bucket-map
write-lock is taken and before it is released: the engine does hold the map
write-lock across store I/O (only the existing-bucket reconciliation path
reads the store without the map lock). -/
theorem claim_C9_amended (rl : RateLimiter) (store : StoreModel) (now : ℚ) (cid : String)
    (hnew : rl.buckets.lookup cid = none) (hp : store.present = true) :
    evIndex LockEvent.mapWLock ((getOrCreateBucket rl store now cid).2.2) <
        evIndex LockEvent.quotaLookup ((getOrCreateBucket rl store now cid).2.2) ∧
    evIndex LockEvent.quotaLookup ((getOrCreateBucket rl store now cid).2.2) <
        evIndex LockEvent.mapWUnlock ((getOrCreateBucket rl store now cid).2.2) ∧
    LockEvent.quotaLookup ∈ (getOrCreateBucket rl store now cid).2.2 ∧
    LockEvent.mapWLock ∈ (getOrCreateBucket rl store now cid).2.2 ∧
    LockEvent.mapWUnlock ∈ (getOrCreateBucket rl store now cid).2.2 := by
  have htr : (getOrCreateBucket rl store now cid).2.2 = createTrace store := by
    simp only [getOrCreateBucket, hnew]
  rw [htr]
  unfold createTrace
  rw [hp]
  cases hss : store.supportsState <;> cases hiss : store.isStateStore <;>
    simp [evIndex, List.findIdx] <;> decide

/-- C9 (amended, witness): first request of client `d` against the
state-supporting store. -/
theorem claim_C9_amended_witness :
    evIndex LockEvent.mapWLock ((getOrCreateBucket rlFresh storeFull 1 "d").2.2) <
        evIndex LockEvent.quotaLookup ((getOrCreateBucket rlFresh storeFull 1 "d").2.2) ∧
    evIndex LockEvent.quotaLookup ((getOrCreateBucket rlFresh storeFull 1 "d").2.2) <
        evIndex LockEvent.mapWUnlock ((getOrCreateBucket rlFresh storeFull 1 "d").2.2) ∧
    LockEvent.quotaLookup ∈ (getOrCreateBucket rlFresh storeFull 1 "d").2.2 ∧
    LockEvent.mapWLock ∈ (getOrCreateBucket rlFresh storeFull 1 "d").2.2 ∧
    LockEvent.mapWUnlock ∈ (getOrCreateBucket rlFresh storeFull 1 "d").2.2 :=
  claim_C9_amended rlFresh storeFull 1 "d" rfl rfl

end LB
